import Mathlib

/-!
Shallow embedding of the Wealthsimple CSV Exporter browser extension
(content.js and the legacy content script kept in the repository),
with theorems checking the natural-language specification against it.

The embedding models the extraction/normalization pipeline: the date
normalizer (parseDate), the amount parser (the cleaning regexes plus
parseFloat), the identity generator (generateImportId), the two-phase
row extractor (extractTransactions), the CSV exporter (downloadCSV)
and the remote sync adapter (syncToActualBudget).

Host-environment pieces (the JavaScript Date free-form parser, the
current date) are passed in explicitly as a DateEnv value, since
new Date(string) on free-form text is implementation-defined.
-/

/-- A calendar date as the JavaScript Date getters expose it:
getFullYear / getMonth (here 1-based rather than 0-based) / getDate. -/
structure SimpleDate where
  year : Int
  month : Nat
  day : Nat
deriving DecidableEq, Repr

/-- The twelve en-US long month names used by
toLocaleDateString with option month = long. -/
def monthNames : List String :=
  ["January", "February", "March", "April", "May", "June",
   "July", "August", "September", "October", "November", "December"]

/-- Long month name of a 1-based month index (empty for out-of-range). -/
def monthName (m : Nat) : String :=
  (monthNames.getD (m - 1) "")

/-- Zero-pad a number to two digits, as the day = 2-digit locale option
and String(x).padStart(2, zero) both do for values below 100. -/
def pad2 (n : Nat) : String :=
  if n < 10 then "0" ++ toString n else toString n

/-- content.js line 78: date.toLocaleDateString with en-US and options
year numeric, month long, day 2-digit, which renders
for example July 01, 2025. -/
def formatDateEnUS (d : SimpleDate) : String :=
  monthName d.month ++ " " ++ pad2 d.day ++ ", " ++ toString d.year

/-- Gregorian leap-year rule, as JavaScript Date arithmetic uses. -/
def isLeap (y : Int) : Bool :=
  (y % 4 == 0 && y % 100 != 0) || y % 400 == 0

/-- Days in a (1-based) month of a given year. -/
def daysInMonth (y : Int) (m : Nat) : Nat :=
  if m = 2 then (if isLeap y then 29 else 28)
  else if m = 4 ∨ m = 6 ∨ m = 9 ∨ m = 11 then 30
  else 31

/-- content.js line 66: date.setDate(today.getDate() - 1), which the
JavaScript Date normalizes to the previous calendar day (rolling over
month and year boundaries). -/
def prevDay (d : SimpleDate) : SimpleDate :=
  if d.day > 1 then { d with day := d.day - 1 }
  else if d.month > 1 then
    { year := d.year, month := d.month - 1, day := daysInMonth d.year (d.month - 1) }
  else
    { year := d.year - 1, month := 12, day := 31 }

/-- content.js line 72: date.setFullYear(today.getFullYear()). -/
def setYear (d : SimpleDate) (y : Int) : SimpleDate :=
  { d with year := y }

/-- Four consecutive decimal digits somewhere in the character list. -/
def fourDigitRun : List Char → Bool
  | a :: b :: c :: d :: rest =>
      (a.isDigit && b.isDigit && c.isDigit && d.isDigit) || fourDigitRun (b :: c :: d :: rest)
  | _ => false

/-- content.js line 71: the test of the regular expression matching four
consecutive digits against the raw date string. -/
def hasFourConsecDigits (s : String) : Bool :=
  fourDigitRun s.toList

/-- The ambient host date facilities parseDate consumes: the current
date (new Date()) and the implementation-defined free-form parser
new Date(string), returning none for an Invalid Date. -/
structure DateEnv where
  today : SimpleDate
  jsParse : String → Option SimpleDate

/-- content.js lines 58-79 (parseDate): Today maps to the current date,
Yesterday to the previous calendar day; any other label goes through the
host free-form date parser, the year is forced to the current year when
the label holds no four-consecutive-digit run, and the result is
formatted with the fixed en-US long-month / 2-digit-day / numeric-year
pattern. An Invalid Date renders as the host sentinel string. -/
def parseDate (env : DateEnv) (dateStr : String) : String :=
  if dateStr = "Today" then formatDateEnUS env.today
  else if dateStr = "Yesterday" then formatDateEnUS (prevDay env.today)
  else
    match env.jsParse dateStr with
    | none => "Invalid Date"
    | some d =>
        formatDateEnUS (if hasFourConsecDigits dateStr then d else setYear d env.today.year)

/-- Longest leading run of decimal digits, with the rest of the input. -/
def takeDigits : List Char → List Char × List Char
  | [] => ([], [])
  | c :: cs =>
      if c.isDigit then
        let p := takeDigits cs
        (c :: p.1, p.2)
      else ([], c :: cs)

/-- Numeric value of a digit list read left to right. -/
def digitsVal (l : List Char) : Nat :=
  l.foldl (fun acc c => 10 * acc + (c.toNat - 48)) 0

/-- Decimal part of the parseFloat grammar after the optional sign:
digits, then optionally a dot and more digits; at least one digit must
be present overall, and trailing unparsable text is ignored. -/
def parseDec (cs : List Char) : Option ℚ :=
  let ip := takeDigits cs
  let fp := if ip.2.headD ' ' = '.' then (takeDigits ip.2.tail).1 else []
  if ip.1.isEmpty ∧ fp.isEmpty then none
  else some ((digitsVal ip.1 : ℚ) + (digitsVal fp : ℚ) / (10 : ℚ) ^ fp.length)

/-- JavaScript parseFloat restricted to the character set the amount
cleaning step can produce (digits, dot, hyphen; a leading plus and
whitespace are accepted as parseFloat does): longest valid prefix,
none when parseFloat returns NaN. -/
def jsParseFloat (s : String) : Option ℚ :=
  let cs := s.toList.dropWhile (fun c => c.isWhitespace)
  if cs.headD ' ' = '-' then (parseDec cs.tail).map (fun q => -q)
  else if cs.headD ' ' = '+' then parseDec cs.tail
  else parseDec cs

/-- The characters of the first amount-cleaning character class at
content.js line 140 as the file actually stores them: the en dash,
em dash and minus characters of the original class were
encoding-corrupted into the six literal characters U+00E2, U+02C6,
U+2019, U+20AC, U+201C, U+201D, and only the escape for U+2212
(minus sign) survived intact. -/
def minusGlyphs : List Char :=
  [Char.ofNat 0x00E2, Char.ofNat 0x02C6, Char.ofNat 0x2019,
   Char.ofNat 0x20AC, Char.ofNat 0x201C, Char.ofNat 0x201D,
   Char.ofNat 0x2212]

/-- content.js line 140: replace every character of the (corrupted)
minus-glyph class with an ASCII hyphen. -/
def replaceMinusGlyphs (s : String) : String :=
  String.mk (s.toList.map (fun c => if c ∈ minusGlyphs then '-' else c))

/-- A character kept by the second cleaning step: digit, dot or hyphen. -/
def isAmountChar (c : Char) : Bool :=
  c.isDigit || c == '.' || c == '-'

/-- content.js line 141: strip every character that is not a digit,
dot or hyphen. -/
def stripAmount (s : String) : String :=
  String.mk (s.toList.filter isAmountChar)

/-- content.js lines 139-141: the cleaned amount text. -/
def cleanedAmount (s : String) : String :=
  stripAmount (replaceMinusGlyphs s)

/-- content.js line 138: the regex test for a digit or dollar sign in
the raw amount text. -/
def hasDigitOrDollar (s : String) : Bool :=
  s.toList.any (fun c => c.isDigit || c == '$')

/-- content.js lines 138-145 (shared by both extraction phases): accept
the raw amount text only when it contains a digit or dollar sign, clean
it, and parse it with parseFloat; none when the row must be skipped. -/
def parseAmount (raw : String) : Option ℚ :=
  if hasDigitOrDollar raw then jsParseFloat (cleanedAmount raw) else none

/-- The legacy content script (the unnamed older copy of content.js),
line 93: only the literal minus sign U+2212 is replaced before
stripping. -/
def legacyCleanedAmount (s : String) : String :=
  stripAmount (String.mk (s.toList.map (fun c => if c = Char.ofNat 0x2212 then '-' else c)))

/-- JavaScript Math.round: round half toward positive infinity. -/
def jsRound (q : ℚ) : Int :=
  ⌊q + 1/2⌋

/-- Remove every whitespace character (the \s+ global replace of
generateImportId; the page text uses ASCII whitespace). -/
def removeWhitespace (s : String) : String :=
  String.mk (s.toList.filter (fun c => !c.isWhitespace))

/-- ASCII lowercasing (the payee and date text is ASCII). -/
def lowerString (s : String) : String :=
  String.mk (s.toList.map Char.toLower)

/-- content.js lines 88-91 (generateImportId): the ws- prefix, the
formatted date, the amount in rounded cents and the merchant,
concatenated with hyphens, whitespace removed, lowercased. -/
def generateImportId (date : String) (amount : ℚ) (merchant : String) : String :=
  lowerString (removeWhitespace
    ("ws-" ++ date ++ "-" ++ toString (jsRound (amount * 100)) ++ "-" ++ merchant))

/-- The canonical transaction record pushed by extractTransactions
(content.js lines 152-160). -/
structure Transaction where
  id : String
  date : String
  amount : ℚ
  payee : String
  notes : String
  category : String
  import_id : String
deriving DecidableEq, Repr

/-- The fields read from an ordered list of paragraph texts of one row
(content.js lines 121-135 and 208-221, identical in both phases). -/
structure RowFields where
  payee : String
  rawAmount : String
  category : String
  notes : String
deriving DecidableEq, Repr

/-- content.js lines 121-135: a row needs at least two paragraphs; the
first is the payee, the last the raw amount text, the second is the
category when more than two are present, and paragraphs 2 .. last-1
joined with a delimiter are the notes when more than three are
present. -/
def extractFields (ps : List String) : Option RowFields :=
  if ps.length ≥ 2 then
    some
      { payee := ps.headD ""
        rawAmount := ps.getLastD ""
        category := if ps.length > 2 then ps.getD 1 "" else ""
        notes :=
          if ps.length > 3 then String.intercalate " | " ((ps.drop 2).dropLast)
          else "" }
  else none

/-- The mutable extraction state of one extractTransactions run: the
seenTransactions set and the transactions array (content.js lines
100-101). -/
structure ExtractState where
  seen : List String
  txs : List Transaction
deriving DecidableEq, Repr

/-- The state at the start of a run: both collections empty. -/
def initState : ExtractState :=
  { seen := [], txs := [] }

/-- The record built for an accepted row (content.js lines 152-160). -/
def mkTransaction (parsedDate : String) (v : ℚ) (f : RowFields) : Transaction :=
  { id := ""
    date := parsedDate
    amount := v
    payee := f.payee
    notes := f.notes
    category := f.category
    import_id := generateImportId parsedDate v f.payee }

/-- content.js lines 120-165: Phase 1 handling of one row given the
current date header text — extract the fields, accept the row when the
amount parses, and append the record unless its import id was already
seen. -/
def processRow (env : DateEnv) (dateText : String) (ps : List String)
    (st : ExtractState) : ExtractState :=
  match extractFields ps with
  | none => st
  | some f =>
      match parseAmount f.rawAmount with
      | none => st
      | some v =>
          let d := parseDate env dateText
          let tx := mkTransaction d v f
          if tx.import_id ∈ st.seen then st
          else { seen := tx.import_id :: st.seen, txs := st.txs ++ [tx] }

/-- content.js lines 208-248: Phase 2 handling of one row; identical to
Phase 1 except that the amount test additionally requires a non-empty
merchant text (line 223). -/
def processRow2 (env : DateEnv) (dateText : String) (ps : List String)
    (st : ExtractState) : ExtractState :=
  match extractFields ps with
  | none => st
  | some f =>
      if f.payee.length > 0 then
        match parseAmount f.rawAmount with
        | none => st
        | some v =>
            let d := parseDate env dateText
            let tx := mkTransaction d v f
            if tx.import_id ∈ st.seen then st
            else { seen := tx.import_id :: st.seen, txs := st.txs ++ [tx] }
      else st

/-- One interactive row element: a button with its ordered paragraph
texts (innerText, trimmed). -/
structure RowEl where
  paragraphs : List String
deriving DecidableEq, Repr

/-- One sibling element of the activity list as Phase 1 sees it: its
tag name (canonicalized to lowercase), whether it carries the
data-fs-privacy-rule unmask marker, its trimmed text, and the
interactive row buttons its subtree contains, in document order. -/
structure SibElem where
  tag : String
  marked : Bool
  text : String
  buttons : List RowEl
deriving DecidableEq, Repr

/-- content.js lines 113-168: the row buttons of the sibling elements
following a header, up to (and not including) the next h2 element of
any kind. -/
def spanRows : List SibElem → List RowEl
  | [] => []
  | e :: rest => if e.tag = "h2" then [] else e.buttons ++ spanRows rest

/-- content.js lines 109-169: Phase 1 walks the sibling list; each
marked h2 is a date header whose span of following row buttons (up to
the next h2) is processed with its date text. -/
def phase1Go (env : DateEnv) : List SibElem → ExtractState → ExtractState
  | [], st => st
  | e :: rest, st =>
      let st2 :=
        if e.tag = "h2" ∧ e.marked then
          (spanRows rest).foldl (fun s r => processRow env e.text r.paragraphs s) st
        else st
      phase1Go env rest st2

/-- Phase 1 (structural strategy) over the sibling list of the
activity container. -/
def phase1 (env : DateEnv) (siblings : List SibElem) (st : ExtractState) : ExtractState :=
  phase1Go env siblings st

/-- An h2 element as Phase 2 sees it: trimmed text and the vertical
extent of its bounding client rect. -/
structure PosHeader where
  text : String
  top : ℚ
  bottom : ℚ
deriving DecidableEq, Repr

/-- A button element as Phase 2 sees it: paragraph texts and the top of
its bounding client rect. -/
structure PosRow where
  paragraphs : List String
  top : ℚ
deriving DecidableEq, Repr

/-- Exact prefix test on character lists. -/
def charPrefix : List Char → List Char → Bool
  | [], _ => true
  | _ :: _, [] => false
  | a :: as, b :: bs => a == b && charPrefix as bs

/-- Substring test on character lists. -/
def containsSub (needle : List Char) : List Char → Bool
  | [] => charPrefix needle []
  | b :: bs => charPrefix needle (b :: bs) || containsSub needle bs

/-- A JavaScript word character: letter, digit or underscore. -/
def isWordChar (c : Char) : Bool :=
  c.isAlphanum || c == '_'

/-- Three consecutive word characters somewhere in the list. -/
def threeWordRun : List Char → Bool
  | a :: b :: c :: rest =>
      (isWordChar a && isWordChar b && isWordChar c) || threeWordRun (b :: c :: rest)
  | _ => false

/-- content.js line 183: the case-insensitive test for header text that
plausibly resembles a date — containing today, yesterday, a digit, or a
run of three or more word characters. -/
def plausibleDateText (s : String) : Bool :=
  let l := s.toList.map Char.toLower
  containsSub ("today".toList) l || containsSub ("yesterday".toList) l ||
    l.any Char.isDigit || threeWordRun l

/-- content.js lines 193-205: among the (plausible) headers, the one
whose bottom lies strictly above the row top, within 2000 pixels, at
the strictly smallest distance; earlier headers win ties. -/
def closestHeader (hs : List PosHeader) (rtop : ℚ) : Option String :=
  (hs.foldl
    (fun best h =>
      if rtop > h.bottom then
        let dist := rtop - h.bottom
        match best with
        | none => if dist < 2000 then some (h.text, dist) else none
        | some p => if dist < p.2 ∧ dist < 2000 then some (h.text, dist) else some p
      else best)
    none).map (fun p => p.1)

/-- content.js lines 176-250: Phase 2 (positional fallback) — filter
the h2 elements to plausible date headers, then for each button in
query order find the closest header above it and process the row with
that date when one is found and its text is non-empty (the truthiness
test on line 207). -/
def phase2 (env : DateEnv) (headers : List PosHeader) (rows : List PosRow)
    (st : ExtractState) : ExtractState :=
  let dateMap := headers.filter (fun h => plausibleDateText h.text)
  rows.foldl
    (fun s r =>
      match closestHeader dateMap r.top with
      | none => s
      | some d => if d = "" then s else processRow2 env d r.paragraphs s)
    st

/-- The rendered document as the extractor consumes it: the sibling
elements of the activity list (Phase 1 view), and the document-wide
h2 and button queries with their geometry (Phase 2 view). -/
structure Document where
  siblings : List SibElem
  posHeaders : List PosHeader
  posRows : List PosRow

/-- content.js lines 98-261 (extractTransactions): run Phase 1; only
when it produced zero records, run Phase 2 on the same state; return
the transactions array. -/
def extractTransactions (env : DateEnv) (doc : Document) : List Transaction :=
  let st1 := phase1 env doc.siblings initState
  if st1.txs.length = 0 then (phase2 env doc.posHeaders doc.posRows st1).txs
  else st1.txs

/-- One element of the legacy content script's combined query (header
h2 or transaction row): a header carries its date text; a row carries
the merchant and amount texts when the expected inner structure is
present, and none when the row button or either text element is
missing (the script then skips it). -/
inductive LegacyElem where
  | header (text : String)
  | row (info : Option (String × String))
deriving DecidableEq, Repr

/-- Legacy content script lines 65-119: one pass over the combined
element list, remembering the last header text; a structurally complete
row always yields a record, with amount 0 when the cleaned text does
not parse (lines 98-101). -/
def legacyStep (env : DateEnv) (acc : String × List Transaction) (e : LegacyElem) :
    String × List Transaction :=
  match e with
  | .header t => (t, acc.2)
  | .row none => acc
  | .row (some mi) =>
      let v := (jsParseFloat (legacyCleanedAmount mi.2)).getD 0
      let d := parseDate env acc.1
      let tx : Transaction :=
        { id := ""
          date := d
          amount := v
          payee := mi.1
          notes := ""
          category := ""
          import_id := generateImportId d v mi.1 }
      (acc.1, acc.2 ++ [tx])

/-- Legacy content script (the unnamed older copy of content.js),
lines 56-123 (extractTransactions): the single-strategy extractor,
with no digit guard and no deduplication. -/
def legacyExtract (env : DateEnv) (els : List LegacyElem) : List Transaction :=
  (els.foldl (legacyStep env) ("", [])).2

/-- JavaScript Number.prototype.toFixed(2) for the exact decimal
amounts the parser produces: round to cents (half away from zero) and
render with a sign, the integer part, a dot and two digits. -/
def toFixed2 (q : ℚ) : String :=
  let n : Int := if q < 0 then -⌊-q * 100 + 1/2⌋ else ⌊q * 100 + 1/2⌋
  let a := n.natAbs
  (if n < 0 then "-" else "") ++ toString (a / 100) ++ "." ++ pad2 (a % 100)

/-- Double every double-quote character (the global replace at
content.js line 365). -/
def doubleQuotes (s : String) : String :=
  String.mk ((s.toList.map (fun c => if c = '"' then ['"', '"'] else [c])).flatten)

/-- content.js line 365: wrap a field value in double quotes with
internal double quotes doubled. -/
def csvQuote (s : String) : String :=
  "\"" ++ doubleQuotes s ++ "\""

/-- content.js line 356: the fixed CSV column order. -/
def csvHeaders : List String :=
  ["id", "date", "amount", "payee", "notes", "category", "import_id"]

/-- content.js lines 361-364: the rendered value of one column of one
record; the amount is the only numeric field and is rendered with
toFixed(2). -/
def csvFieldValue (tx : Transaction) (h : String) : String :=
  if h = "id" then tx.id
  else if h = "date" then tx.date
  else if h = "amount" then toFixed2 tx.amount
  else if h = "payee" then tx.payee
  else if h = "notes" then tx.notes
  else if h = "category" then tx.category
  else tx.import_id

/-- content.js lines 360-366: one CSV data row. -/
def csvRow (tx : Transaction) : String :=
  String.intercalate "," (csvHeaders.map (fun h => csvQuote (csvFieldValue tx h)))

/-- content.js line 367: the row separator as the file actually stores
it — the two-character sequence backslash, n (the JavaScript string
literal there is an escaped backslash followed by n, not a newline). -/
def jsRowSep : String :=
  "\\n"

/-- content.js lines 358-367: the CSV text of downloadCSV — the
unquoted header row, then one quoted row per record, joined with the
row separator above. -/
def csvContent (txs : List Transaction) : String :=
  String.intercalate jsRowSep (String.intercalate "," csvHeaders :: txs.map csvRow)

/-- Split a character list at every occurrence of a separator (the
list of lines when the separator is the newline character). -/
def splitOnChar (sep : Char) : List Char → List (List Char)
  | [] => [[]]
  | c :: cs =>
      let r := splitOnChar sep cs
      if c = sep then [] :: r
      else
        match r with
        | [] => [[c]]
        | h :: t => (c :: h) :: t

/-- The physical lines of a text under the newline terminator. -/
def csvLines (s : String) : List String :=
  (splitOnChar '\n' s.toList).map String.mk

/-- An ASCII letter or digit (the case-insensitive class of the
filename sanitizer at content.js line 375). -/
def isAsciiAlnum (c : Char) : Bool :=
  (c ≥ 'a' && c ≤ 'z') || (c ≥ 'A' && c ≤ 'Z') || (c ≥ '0' && c ≤ '9')

/-- content.js line 375: replace every character that is not an ASCII
letter or digit with an underscore, then lowercase. -/
def sanitizeLabel (s : String) : String :=
  lowerString (String.mk (s.toList.map (fun c => if isAsciiAlnum c then c else '_')))

/-- The current date in the ISO form toISOString().slice(0,10)
produces: 4-digit year, 2-digit month, 2-digit day. -/
def isoDateString (d : SimpleDate) : String :=
  (if d.year.natAbs < 1000 then
    (if d.year.natAbs < 10 then "000" else if d.year.natAbs < 100 then "00" else "0")
   else "") ++ toString d.year ++ "-" ++ pad2 d.month ++ "-" ++ pad2 d.day

/-- content.js lines 375-376: the download filename; the sanitized
label followed by one underscore is inserted only when the accountName
argument is truthy (present and non-empty). -/
def csvFilename (accountName : Option String) (today : SimpleDate) : String :=
  let safe :=
    match accountName with
    | none => ""
    | some s => if s = "" then "" else sanitizeLabel s ++ "_"
  "wealthsimple_" ++ safe ++ "transactions_" ++ isoDateString today ++ ".csv"

/-- The transaction shape submitted to the remote budgeting API
(content.js lines 288-294). -/
structure FormattedTx where
  date : String
  amount : Int
  payee_name : String
  notes : String
  imported_id : String
deriving DecidableEq, Repr

/-- The settings object read from extension storage (content.js line
267); each field may be absent, and the account map is a finite
key-value object. -/
structure SyncSettings where
  apiUrl : Option String
  apiKey : Option String
  budgetId : Option String
  accountMap : Option (List (String × String))

/-- JavaScript falsiness of an optional string setting: absent or
empty. -/
def jsFalsyOpt : Option String → Bool
  | none => true
  | some s => s.isEmpty

/-- content.js line 274: accountMap and accountMap[accountName] must
both be truthy, else the mapped account id is null. -/
def lookupAccountId (m : Option (List (String × String))) (name : String) : Option String :=
  match m with
  | none => none
  | some l =>
      match l.find? (fun p => p.1 = name) with
      | none => none
      | some p => if p.2 = "" then none else some p.2

/-- content.js lines 282-295: one record mapped to the remote schema —
the canonical date re-parsed by the host and re-rendered as YYYY-MM-DD,
the amount in rounded cents, the payee passed through, the notes formed
by joining the truthy ones of category and notes, and the import id as
idempotency key. -/
def formatTx (env : DateEnv) (tx : Transaction) : FormattedTx :=
  { date :=
      match env.jsParse tx.date with
      | none => "NaN-NaN-NaN"
      | some d => toString d.year ++ "-" ++ pad2 d.month ++ "-" ++ pad2 d.day
    amount := jsRound (tx.amount * 100)
    payee_name := tx.payee
    notes := String.intercalate " | " ([tx.category, tx.notes].filter (fun s => s ≠ ""))
    imported_id := tx.import_id }

/-- The observable outcome of syncToActualBudget: either an immediate
user-visible configuration error (an alert; nothing mapped, nothing
handed to the message relay) or a delegated transmission carrying the
target URL, the credential and the mapped records. -/
inductive SyncResult where
  | configError (msg : String)
  | sent (url : String) (apiKey : Option String) (txs : List FormattedTx)
deriving DecidableEq, Repr

/-- Whether a sync outcome is an aborted configuration error. -/
def SyncResult.isConfigError : SyncResult → Bool
  | .configError _ => true
  | .sent _ _ _ => false

/-- content.js lines 266-342 (syncToActualBudget): abort with an alert
when the endpoint URL or budget id is missing, or when no truthy
account id is mapped for the account name; otherwise map every record
and delegate the transmission to the background relay. -/
def syncToActualBudget (env : DateEnv) (txs : List Transaction)
    (accountName : String) (settings : SyncSettings) : SyncResult :=
  if jsFalsyOpt settings.apiUrl || jsFalsyOpt settings.budgetId then
    .configError "Actual Budget API URL or Budget ID is missing in settings."
  else
    match lookupAccountId settings.accountMap accountName with
    | none => .configError ("No Actual Budget Account ID mapped for Wealthsimple account: " ++ accountName)
    | some actualAccountId =>
        .sent
          ((settings.apiUrl.getD "") ++ "/budgets/" ++ (settings.budgetId.getD "") ++
            "/accounts/" ++ actualAccountId ++ "/transactions/import")
          settings.apiKey
          (txs.map (formatTx env))

/-- A concrete host-date environment for concrete evaluations: the
current date is July 1, 2025, and the free-form parser returns fixed
dates for the labels the samples use. -/
def sampleEnv : DateEnv :=
  { today := ⟨2025, 7, 1⟩
    jsParse := fun s =>
      if s = "March 3, 2022" then some ⟨2022, 3, 3⟩
      else if s = "March 3" then some ⟨1900, 3, 3⟩
      else some ⟨2025, 7, 1⟩ }

/-- A concrete valid transaction record. -/
def sampleTx : Transaction :=
  { id := ""
    date := "July 01, 2025"
    amount := -9/2
    payee := "Coffee Shop"
    notes := ""
    category := ""
    import_id := "ws-july01,2025--450-coffeeshop" }

/-- A raw amount text whose minus glyph is the en dash U+2013,
followed by a dollar sign and the numerals 12.50. -/
def enDashRaw : String :=
  String.mk [Char.ofNat 0x2013, '$', '1', '2', '.', '5', '0']

/-- The state invariant maintained by both extraction phases: the
collected import ids are pairwise distinct, every collected id is in
the seen set, and every record's id is the Identity Generator applied
to its own date, amount and payee. -/
def stateInv (st : ExtractState) : Prop :=
  (st.txs.map (fun tx => tx.import_id)).Nodup ∧
  ∀ tx ∈ st.txs, tx.import_id ∈ st.seen ∧
    tx.import_id = generateImportId tx.date tx.amount tx.payee

/-- The shape the claim about canonical dates asserts of a formatted
date string: a full en-US month name, a space, a 2-digit day, a comma
and space, and a 4-digit year, all digits decimal. -/
def dateFormatOk (s : String) : Prop :=
  ∃ m dd y, s = m ++ " " ++ dd ++ ", " ++ y ∧ m ∈ monthNames ∧
    dd.length = 2 ∧ (∀ c ∈ dd.toList, c.isDigit = true) ∧
    y.length = 4 ∧ (∀ c ∈ y.toList, c.isDigit = true)

/-- The decimal digit list of a natural number (most significant
first), the reference for the length and digit facts about the core
decimal printer. -/
def decDigits (n : Nat) : List Char :=
  if n < 10 then [Nat.digitChar n]
  else decDigits (n / 10) ++ [Nat.digitChar (n % 10)]
decreasing_by exact Nat.div_lt_self (Nat.pos_of_ne_zero (by omega)) (by omega)


/-- A marked date header element for the span-attribution instance. -/
def spanHeader : SibElem :=
  { tag := "h2", marked := true, text := "Today", buttons := [] }

/-- The sibling elements between the header and the next h2: one
container with one row. -/
def spanMid : List SibElem :=
  [{ tag := "div", marked := false, text := "", buttons := [⟨["Coffee", "-$4.50"]⟩] }]

/-- The h2 element (unmarked) at which the sibling walk stops. -/
def spanStopper : SibElem :=
  { tag := "h2", marked := false, text := "Recent", buttons := [] }

section
attribute [local semireducible] Rat.add Rat.mul Rat.sub Rat.inv Rat.ofScientific
set_option maxRecDepth 4000

/-- Claim C1 (code bug evaluation): for one concrete valid record the
CSV text produced by downloadCSV is a single physical line — it
contains no newline character at all, because the row join separator
in content.js is the literal two-character sequence backslash, n —
rather than the 2 lines (header plus one row) the claim requires. -/
theorem csv_output_is_one_physical_line :
    (csvLines (csvContent [sampleTx])).length = 1 ∧
    '\n' ∉ (csvContent [sampleTx]).toList ∧
    '\\' ∈ (csvContent [sampleTx]).toList := by
  decide

/-- Claim C2 (code bug evaluation): the raw amount text whose minus
glyph is the en dash U+2013 parses to positive 12.5 — the cleaning
step fails to convert the en dash to a hyphen (the corrupted character
class at content.js line 140 no longer contains it) and then strips
it — whereas the claim requires a negative value. -/
theorem endash_amount_parses_positive :
    parseAmount enDashRaw = some (25/2) ∧ (0 : ℚ) < 25/2 := by
  decide

/-- Claim C3 (counterexample): the legacy content script's extractor,
given a row whose raw amount text Pending contains no digit, emits a
record with amount 0 instead of skipping the row. -/
theorem legacy_digitless_row_emits_zero :
    (legacyExtract sampleEnv
      [.header "Today", .row (some ("Coffee", "Pending"))]).map
        (fun tx => tx.amount) = [0] := by
  decide

/-- Claim C4 (counterexample): the row whose paragraphs are the empty
payee and the amount text dollars 5.00 is accepted by the Phase 1 row
handler (one record emitted) but rejected by the Phase 2 row handler
(no record), because Phase 2 additionally requires a non-empty payee:
acceptance is not the same in the two phases. -/
theorem phase2_rejects_empty_payee_row :
    (processRow sampleEnv "Today" ["", "$5.00"] initState).txs.length = 1 ∧
    (processRow2 sampleEnv "Today" ["", "$5.00"] initState).txs.length = 0 := by
  decide

/-- Claim C8 (counterexample): with a marked date header Today, a row
Coffee, an unmarked h2 and then a row Tea, Phase 1 stops its sibling
walk at the unmarked h2 — although the next marked date header never
comes — so only Coffee is extracted; under the claim's reading of the
walk (stop only at the next marked header) Tea would also be
attributed to Today. -/
theorem phase1_stops_at_any_h2 :
    (extractTransactions sampleEnv
      { siblings :=
          [{ tag := "h2", marked := true, text := "Today", buttons := [] },
           { tag := "div", marked := false, text := "", buttons := [⟨["Coffee", "-$4.50"]⟩] },
           { tag := "h2", marked := false, text := "Recent", buttons := [] },
           { tag := "div", marked := false, text := "", buttons := [⟨["Tea", "-$3.00"]⟩] }]
        posHeaders := []
        posRows := [] }).map (fun tx => tx.payee) = ["Coffee"] := by
  decide

/-- No leading digits means takeDigits consumes nothing. -/
theorem takeDigits_eq_nil {l : List Char} (h : ∀ c ∈ l, c.isDigit = false) :
    takeDigits l = ([], l) := by
  cases l with
  | nil => rfl
  | cons c cs => simp [takeDigits, h c (List.mem_cons_self c cs)]

/-- A digit-free character list is not a parseFloat number. -/
theorem parseDec_eq_none {cs : List Char} (h : ∀ c ∈ cs, c.isDigit = false) :
    parseDec cs = none := by
  have htail : ∀ c ∈ cs.tail, c.isDigit = false :=
    fun c hc => h c ((List.tail_sublist cs).subset hc)
  unfold parseDec
  rw [takeDigits_eq_nil h]
  dsimp only
  rw [takeDigits_eq_nil htail]
  simp

/-- A digit-free string parses to NaN. -/
theorem jsParseFloat_eq_none {s : String} (h : ∀ c ∈ s.toList, c.isDigit = false) :
    jsParseFloat s = none := by
  have hd : ∀ c ∈ s.toList.dropWhile (fun c => c.isWhitespace), c.isDigit = false :=
    fun c hc => h c ((List.dropWhile_sublist _).subset hc)
  have hdt : ∀ c ∈ (s.toList.dropWhile (fun c => c.isWhitespace)).tail, c.isDigit = false :=
    fun c hc => hd c ((List.tail_sublist _).subset hc)
  unfold jsParseFloat
  dsimp only
  rw [parseDec_eq_none hd, parseDec_eq_none hdt]
  simp

/-- A digit-free raw amount text is rejected by the shared amount
acceptance step of both phases. -/
theorem parseAmount_eq_none {raw : String} (h : ∀ c ∈ raw.toList, c.isDigit = false) :
    parseAmount raw = none := by
  unfold parseAmount
  split
  · apply jsParseFloat_eq_none
    intro c hc
    have hc2 : c ∈ (raw.toList.map
        (fun c => if c ∈ minusGlyphs then '-' else c)).filter isAmountChar := hc
    have hc3 := List.of_mem_filter hc2
    have hc4 := List.mem_filter.mp hc2 |>.1
    obtain ⟨a, ha, rfl⟩ := List.mem_map.mp hc4
    by_cases hm : a ∈ minusGlyphs
    · simp [hm]
    · simp [hm, h a ha]
  · rfl
/-- Claim C3 (amended): in the current two-phase extractor, a row whose
raw amount text (its last paragraph) contains no digit is skipped
entirely by both phase row handlers — the extraction state is
unchanged, so no record, in particular none with amount 0, is emitted
for it. -/
theorem digitless_amount_row_skipped (env : DateEnv) (dateText : String)
    (ps : List String) (st : ExtractState)
    (h : ∀ c ∈ (ps.getLastD "").toList, c.isDigit = false) :
    processRow env dateText ps st = st ∧ processRow2 env dateText ps st = st := by
  have hpa : parseAmount (ps.getLastD "") = none := parseAmount_eq_none h
  constructor
  · unfold processRow
    cases hf : extractFields ps with
    | none => rfl
    | some f =>
        have hraw : f.rawAmount = ps.getLastD "" := by
          unfold extractFields at hf
          split at hf
          · injection hf with h2
            rw [← h2]
          · exact Option.noConfusion hf
        dsimp only
        rw [hraw, hpa]
  · unfold processRow2
    cases hf : extractFields ps with
    | none => rfl
    | some f =>
        have hraw : f.rawAmount = ps.getLastD "" := by
          unfold extractFields at hf
          split at hf
          · injection hf with h2
            rw [← h2]
          · exact Option.noConfusion hf
        dsimp only
        rw [hraw, hpa]
        simp

/-- Concrete instance of the digit-free skip: the row with payee
Coffee and raw amount Pending leaves the initial state untouched in
both phases. -/
theorem digitless_amount_row_skipped_witness :
    processRow sampleEnv "Today" ["Coffee", "Pending"] initState = initState ∧
    processRow2 sampleEnv "Today" ["Coffee", "Pending"] initState = initState :=
  digitless_amount_row_skipped sampleEnv "Today" ["Coffee", "Pending"] initState
    (by decide)

/-- Claim C4 (amended): the Phase 2 row handler applies the same field
extraction (extractFields) and the same acceptance rules as Phase 1,
except that it additionally rejects a row whose extracted payee is
empty: on any row it behaves exactly like the Phase 1 handler guarded
by a non-empty payee. -/
theorem phase2_row_acceptance (env : DateEnv) (dateText : String)
    (ps : List String) (st : ExtractState) :
    processRow2 env dateText ps st =
      match extractFields ps with
      | none => st
      | some f => if f.payee = "" then st else processRow env dateText ps st := by
  unfold processRow2 processRow
  cases hf : extractFields ps with
  | none => rfl
  | some f =>
      by_cases hp : f.payee = ""
      · have : f.payee.length = 0 := by rw [hp]; rfl
        simp [hp, this]
      · have : f.payee.length > 0 := by
          cases hl : f.payee.length with
          | zero =>
              exfalso
              apply hp
              have : f.payee.data = [] := List.length_eq_zero.mp hl
              cases hpd : f.payee
              simp_all
          | succ n => omega
        simp [hp, this]

/-- Claim C5: the positional fallback runs exactly when the structural
strategy produced zero records — when Phase 1 yields at least one
record the extractor returns Phase 1's records unchanged (Phase 2
contributes nothing), and when Phase 1 yields none the output is
Phase 2 run on Phase 1's (empty) final state. -/
theorem strategy_order_first_nonempty (env : DateEnv) (doc : Document) :
    ((phase1 env doc.siblings initState).txs ≠ [] →
      extractTransactions env doc = (phase1 env doc.siblings initState).txs) ∧
    ((phase1 env doc.siblings initState).txs = [] →
      extractTransactions env doc =
        (phase2 env doc.posHeaders doc.posRows
          (phase1 env doc.siblings initState)).txs) := by
  unfold extractTransactions
  constructor
  · intro h
    rw [if_neg]
    intro hlen
    exact h (List.length_eq_zero.mp hlen)
  · intro h
    rw [if_pos]
    rw [h]
    rfl

/-- Appending a fresh record preserves the extraction-state
invariant. -/
theorem emit_inv (st : ExtractState) (tx : Transaction)
    (hid : tx.import_id = generateImportId tx.date tx.amount tx.payee)
    (hnot : tx.import_id ∉ st.seen) (h : stateInv st) :
    stateInv { seen := tx.import_id :: st.seen, txs := st.txs ++ [tx] } := by
  obtain ⟨hnd, hmem⟩ := h
  refine ⟨?_, ?_⟩
  · rw [List.map_append]
    refine List.Nodup.append hnd (by simp) ?_
    intro x hx hx2
    simp only [List.map_cons, List.map_nil, List.mem_singleton] at hx2
    obtain ⟨ty, hty, hyx⟩ := List.mem_map.mp hx
    apply hnot
    rw [← hx2, ← hyx]
    exact (hmem ty hty).1
  · intro ty hty
    rcases List.mem_append.mp hty with hl | hr
    · exact ⟨List.mem_cons_of_mem _ (hmem ty hl).1, (hmem ty hl).2⟩
    · rcases List.mem_singleton.mp hr with rfl
      exact ⟨List.mem_cons_self _ _, hid⟩

/-- The Phase 1 row handler preserves the extraction-state
invariant. -/
theorem processRow_inv (env : DateEnv) (dateText : String) (ps : List String)
    (st : ExtractState) (h : stateInv st) :
    stateInv (processRow env dateText ps st) := by
  unfold processRow
  split
  · exact h
  · split
    · exact h
    · dsimp only
      split
      · exact h
      · exact emit_inv st _ rfl (by assumption) h

/-- The Phase 2 row handler preserves the extraction-state
invariant. -/
theorem processRow2_inv (env : DateEnv) (dateText : String) (ps : List String)
    (st : ExtractState) (h : stateInv st) :
    stateInv (processRow2 env dateText ps st) := by
  unfold processRow2
  split
  · exact h
  · split
    · split
      · exact h
      · dsimp only
        split
        · exact h
        · exact emit_inv st _ rfl (by assumption) h
    · exact h

/-- Folding an invariant-preserving step preserves the invariant. -/
theorem foldl_inv {β : Type} (g : ExtractState → β → ExtractState)
    (hg : ∀ st b, stateInv st → stateInv (g st b)) :
    ∀ (l : List β) (st : ExtractState), stateInv st → stateInv (l.foldl g st)
  | [], _, h => h
  | b :: l, st, h => foldl_inv g hg l (g st b) (hg st b h)

/-- Phase 1 preserves the extraction-state invariant. -/
theorem phase1Go_inv (env : DateEnv) :
    ∀ (l : List SibElem) (st : ExtractState), stateInv st →
      stateInv (phase1Go env l st) := by
  intro l
  induction l with
  | nil => exact fun st h => h
  | cons e rest ih =>
      intro st h
      unfold phase1Go
      apply ih
      split
      · exact foldl_inv _ (fun s r hs => processRow_inv env e.text r.paragraphs s hs)
          (spanRows rest) st h
      · exact h

/-- Phase 2 preserves the extraction-state invariant. -/
theorem phase2_inv (env : DateEnv) (headers : List PosHeader) (rows : List PosRow)
    (st : ExtractState) (h : stateInv st) :
    stateInv (phase2 env headers rows st) := by
  unfold phase2
  apply foldl_inv
  · intro s r hs
    split
    · exact hs
    · split
      · exact hs
      · exact processRow2_inv env _ r.paragraphs s hs
  · exact h

/-- Claim C6: within one extraction run the emitted records carry
pairwise-distinct import_id values, and every record's import_id is
the Identity Generator applied to its own (date, amount, payee) — so
two accepted rows with the same (date, amount, payee) triple, whatever
their notes or category, can contribute only one record, in whichever
phase they are processed (the dedup state is shared). -/
theorem extract_import_ids_nodup (env : DateEnv) (doc : Document) :
    ((extractTransactions env doc).map (fun tx => tx.import_id)).Nodup ∧
    ∀ tx ∈ extractTransactions env doc,
      tx.import_id = generateImportId tx.date tx.amount tx.payee := by
  have h0 : stateInv initState := ⟨List.nodup_nil, by intro tx htx; cases htx⟩
  have h1 : stateInv (phase1 env doc.siblings initState) :=
    phase1Go_inv env doc.siblings initState h0
  unfold extractTransactions
  dsimp only
  split
  · have h2 := phase2_inv env doc.posHeaders doc.posRows _ h1
    exact ⟨h2.1, fun tx htx => (h2.2 tx htx).2⟩
  · exact ⟨h1.1, fun tx htx => (h1.2 tx htx).2⟩

/-- Unfolding equation of the Phase 1 walk at a cons cell. -/
theorem phase1Go_cons (env : DateEnv) (e : SibElem) (rest : List SibElem)
    (st : ExtractState) :
    phase1Go env (e :: rest) st =
      phase1Go env rest
        (if e.tag = "h2" ∧ e.marked then
          (spanRows rest).foldl (fun s r => processRow env e.text r.paragraphs s) st
        else st) := rfl

/-- The row span following a header: all buttons of the non-h2
elements before the next h2, and nothing beyond it. -/
theorem spanRows_append (mid : List SibElem) (f : SibElem) (rest : List SibElem)
    (hmid : ∀ x ∈ mid, x.tag ≠ "h2") (hf : f.tag = "h2") :
    spanRows (mid ++ f :: rest) = (mid.map (fun x => x.buttons)).flatten := by
  induction mid with
  | nil =>
      simp only [List.nil_append, List.map_nil, List.flatten_nil]
      unfold spanRows
      rw [if_pos hf]
  | cons x xs ih =>
      simp only [List.cons_append]
      unfold spanRows
      rw [if_neg (hmid x (List.mem_cons_self x xs))]
      rw [ih (fun y hy => hmid y (List.mem_cons_of_mem _ hy))]
      simp

/-- Elements that are not h2 trigger no header processing: the walk
passes over them without changing the state. -/
theorem phase1Go_skip_nonheaders (env : DateEnv) :
    ∀ (mid tail : List SibElem) (st : ExtractState),
      (∀ x ∈ mid, x.tag ≠ "h2") →
      phase1Go env (mid ++ tail) st = phase1Go env tail st := by
  intro mid
  induction mid with
  | nil => intro tail st _; rfl
  | cons x xs ih =>
      intro tail st h
      simp only [List.cons_append]
      rw [phase1Go_cons]
      rw [if_neg (fun hc => h x (List.mem_cons_self x xs) hc.1)]
      exact ih tail st (fun y hy => h y (List.mem_cons_of_mem _ hy))

/-- Claim C8 (amended): for a marked date header, Phase 1 attributes to
its date exactly the row buttons of the sibling elements strictly
between the header and the next h2 element of any kind (marked or
not), in order, and processing then continues from that h2 with no
further rows attributed to this header. -/
theorem phase1_header_span_attribution (env : DateEnv) (e : SibElem)
    (mid : List SibElem) (f : SibElem) (rest : List SibElem) (st : ExtractState)
    (he : e.tag = "h2") (hm : e.marked = true)
    (hmid : ∀ x ∈ mid, x.tag ≠ "h2") (hf : f.tag = "h2") :
    phase1Go env (e :: (mid ++ f :: rest)) st =
      phase1Go env (f :: rest)
        (((mid.map (fun x => x.buttons)).flatten).foldl
          (fun s r => processRow env e.text r.paragraphs s) st) := by
  rw [phase1Go_cons]
  rw [if_pos ⟨he, hm⟩]
  rw [spanRows_append mid f rest hmid hf]
  exact phase1Go_skip_nonheaders env mid (f :: rest) _ hmid

/-- Concrete instance of the span attribution: the Coffee row between
the marked Today header and the unmarked h2 is processed with the
Today date, and the walk hands over at the unmarked h2. -/
theorem phase1_header_span_attribution_witness :
    phase1Go sampleEnv (spanHeader :: (spanMid ++ spanStopper :: [])) initState =
      phase1Go sampleEnv (spanStopper :: [])
        (((spanMid.map (fun x => x.buttons)).flatten).foldl
          (fun s r => processRow sampleEnv spanHeader.text r.paragraphs s) initState) :=
  phase1_header_span_attribution sampleEnv spanHeader spanMid spanStopper [] initState
    rfl rfl (by decide) rfl

/-- Claim C9: when the endpoint URL is missing (absent or empty), or
the budget identifier is missing, or no truthy account id is mapped
for the account name, syncToActualBudget returns a configuration-error
outcome — a user-visible alert with no mapped records and no delegated
transmission (the error constructor carries no payload, so nothing is
submitted and nothing is retried). -/
theorem sync_config_error_aborts (env : DateEnv) (txs : List Transaction)
    (accountName : String) (settings : SyncSettings)
    (h : jsFalsyOpt settings.apiUrl = true ∨ jsFalsyOpt settings.budgetId = true ∨
      lookupAccountId settings.accountMap accountName = none) :
    ∃ msg, syncToActualBudget env txs accountName settings =
      SyncResult.configError msg := by
  by_cases hc : (jsFalsyOpt settings.apiUrl || jsFalsyOpt settings.budgetId) = true
  · exact ⟨_, by unfold syncToActualBudget; rw [if_pos hc]⟩
  · have hm : lookupAccountId settings.accountMap accountName = none := by
      rcases h with h1 | h1 | h1
      · simp [h1] at hc
      · simp [h1] at hc
      · exact h1
    exact ⟨_, by unfold syncToActualBudget; rw [if_neg hc, hm]⟩

/-- Concrete instance of the configuration-error abort: with no
endpoint URL configured the sync of one record returns a
configuration error. -/
theorem sync_config_error_aborts_witness :
    ∃ msg, syncToActualBudget sampleEnv [sampleTx] "cash"
        { apiUrl := none, apiKey := some "key", budgetId := some "budget",
          accountMap := none } =
      SyncResult.configError msg :=
  sync_config_error_aborts sampleEnv [sampleTx] "cash"
    { apiUrl := none, apiKey := some "key", budgetId := some "budget",
      accountMap := none }
    (Or.inl (by decide))

/-- Claim C10: when the descriptive label is absent or empty the
filename is exactly wealthsimple_transactions_ followed by the ISO
date and .csv, with no label segment and no extra underscore; when the
label is non-empty the sanitized lowercased label and a single
underscore are inserted between wealthsimple_ and transactions_. -/
theorem csvFilename_label_spec (today : SimpleDate) (label : Option String) :
    ((label = none ∨ label = some "") →
      csvFilename label today =
        "wealthsimple_transactions_" ++ isoDateString today ++ ".csv") ∧
    (∀ s, label = some s → s ≠ "" →
      csvFilename label today =
        "wealthsimple_" ++ sanitizeLabel s ++ "_transactions_" ++
          isoDateString today ++ ".csv") := by
  constructor
  · rintro (rfl | rfl)
    · unfold csvFilename
      dsimp only
      congr 2
    · unfold csvFilename
      dsimp only
      rw [if_pos rfl]
      congr 2
  · rintro s rfl hs
    unfold csvFilename
    dsimp only
    rw [if_neg hs]
    congr 2
    rw [← String.append_assoc "wealthsimple_" (sanitizeLabel s) "_"]
    rw [String.append_assoc ("wealthsimple_" ++ sanitizeLabel s) "_" "transactions_"]
    rw [show (("_" : String) ++ "transactions_") = "_transactions_" from by decide]

/-- The fueled core decimal printer agrees with the reference digit
list whenever the fuel covers the input. -/
theorem toDigitsCore_eq_decDigits :
    ∀ (f n : Nat) (l : List Char), n < f →
      Nat.toDigitsCore 10 f n l = decDigits n ++ l := by
  intro f
  induction f with
  | zero => intro n l h; exact absurd h (Nat.not_lt_zero n)
  | succ f ih =>
      intro n l h
      unfold Nat.toDigitsCore
      by_cases hn : n < 10
      · have h0 : n / 10 = 0 := by omega
        rw [if_pos h0]
        unfold decDigits
        rw [if_pos hn]
        have hmod : n % 10 = n := by omega
        rw [hmod]
        rfl
      · have h0 : n / 10 ≠ 0 := by omega
        rw [if_neg h0]
        have hlt : n / 10 < f := by omega
        rw [ih (n / 10) _ hlt]
        conv_rhs => unfold decDigits
        rw [if_neg hn]
        rw [List.append_assoc]
        rfl

/-- The character list of the decimal representation of a natural
number. -/
theorem natRepr_toList (n : Nat) : (Nat.repr n).toList = decDigits n := by
  unfold Nat.repr Nat.toDigits
  rw [toDigitsCore_eq_decDigits (n + 1) n [] (Nat.lt_succ_self n), List.append_nil]
  rfl

/-- Lengths of the reference digit list in a decade range. -/
theorem decDigits_length (k : Nat) :
    ∀ n, 10 ^ k ≤ n → n < 10 ^ (k + 1) → (decDigits n).length = k + 1 := by
  induction k with
  | zero =>
      intro n _ h2
      unfold decDigits
      rw [if_pos (by simpa using h2)]
      rfl
  | succ k ih =>
      intro n h1 h2
      have hp : (10 : Nat) ≤ 10 ^ (k + 1) := by
        calc (10 : Nat) = 10 ^ 1 := (pow_one 10).symm
        _ ≤ 10 ^ (k + 1) := Nat.pow_le_pow_right (by omega) (by omega)
      have hn : ¬ n < 10 := by omega
      unfold decDigits
      rw [if_neg hn, List.length_append]
      have hd1 : 10 ^ k ≤ n / 10 := by
        rw [Nat.le_div_iff_mul_le (by omega)]
        calc 10 ^ k * 10 = 10 ^ (k + 1) := (pow_succ 10 k).symm
        _ ≤ n := h1
      have hd2 : n / 10 < 10 ^ (k + 1) := by
        rw [Nat.div_lt_iff_lt_mul (by omega)]
        calc n < 10 ^ (k + 2) := h2
        _ = 10 ^ (k + 1) * 10 := pow_succ 10 (k + 1)
      rw [ih (n / 10) hd1 hd2]
      rfl

/-- Digit characters of values below ten are decimal digits. -/
theorem digitChar_isDigit {n : Nat} (h : n < 10) :
    (Nat.digitChar n).isDigit = true := by
  interval_cases n <;> decide

/-- Every character of the reference digit list is a decimal digit. -/
theorem decDigits_all_digits :
    ∀ n, ∀ c ∈ decDigits n, c.isDigit = true := by
  intro n
  induction n using Nat.strong_induction_on with
  | _ n ih =>
      intro c hc
      unfold decDigits at hc
      by_cases hn : n < 10
      · rw [if_pos hn] at hc
        rcases List.mem_singleton.mp hc with rfl
        exact digitChar_isDigit hn
      · rw [if_neg hn] at hc
        rcases List.mem_append.mp hc with h1 | h1
        · exact ih (n / 10) (Nat.div_lt_self (by omega) (by omega)) c h1
        · rcases List.mem_singleton.mp h1 with rfl
          exact digitChar_isDigit (Nat.mod_lt n (by omega))

/-- The zero-padded day rendering is two decimal digits for day
values up to 99. -/
theorem pad2_spec (n : Nat) (h : n ≤ 99) :
    (pad2 n).length = 2 ∧ ∀ c ∈ (pad2 n).toList, c.isDigit = true := by
  unfold pad2
  by_cases hn : n < 10
  · rw [if_pos hn]
    have hts : ("0" ++ toString n).toList = '0' :: decDigits n := by
      rw [show (toString n : String) = Nat.repr n from rfl]
      show '0' :: (Nat.repr n).toList = _
      rw [natRepr_toList]
    constructor
    · show ("0" ++ toString n).toList.length = 2
      rw [hts]
      have hl : (decDigits n).length = 1 := by
        unfold decDigits
        rw [if_pos hn]
        rfl
      simp [hl]
    · intro c hc
      rw [hts] at hc
      rcases List.mem_cons.mp hc with rfl | h2
      · decide
      · exact decDigits_all_digits n c h2
  · rw [if_neg hn]
    have hts : (toString n : String).toList = decDigits n := natRepr_toList n
    constructor
    · show (toString n : String).toList.length = 2
      rw [hts]
      have := decDigits_length 1 n (by omega) (by omega)
      simpa using this
    · intro c hc
      rw [hts] at hc
      exact decDigits_all_digits n c hc

/-- A year between 1000 and 9999 renders as four decimal digits. -/
theorem year_repr_spec (y : Int) (h1 : 1000 ≤ y) (h2 : y ≤ 9999) :
    (toString y).length = 4 ∧ ∀ c ∈ (toString y).toList, c.isDigit = true := by
  obtain ⟨n, rfl⟩ := Int.eq_ofNat_of_zero_le (by omega : (0 : Int) ≤ y)
  have hn1 : 1000 ≤ n := by exact_mod_cast h1
  have hn2 : n ≤ 9999 := by exact_mod_cast h2
  rw [show ((↑n : ℤ)) = Int.ofNat n from rfl]
  rw [show (toString (Int.ofNat n) : String) = Nat.repr n from rfl]
  constructor
  · show (Nat.repr n).toList.length = 4
    rw [natRepr_toList]
    have := decDigits_length 3 n (by omega) (by omega)
    simpa using this
  · intro c hc
    rw [natRepr_toList] at hc
    exact decDigits_all_digits n c hc

/-- Claim C7: the date normalizer maps Today to the current date and
Yesterday to the previous calendar day; any other label is parsed by
the host parser and its year is forced to the current year exactly
when the label contains no 4-consecutive-digit (year) token, so an
explicit 4-digit year is preserved; and the output for any valid
parsed date is the fixed en-US full month name, 2-digit zero-padded
day and 4-digit year, independent of the host locale. -/
theorem parseDate_spec (env : DateEnv) :
    parseDate env "Today" = formatDateEnUS env.today ∧
    parseDate env "Yesterday" = formatDateEnUS (prevDay env.today) ∧
    (∀ s d, s ≠ "Today" → s ≠ "Yesterday" → env.jsParse s = some d →
      parseDate env s =
        formatDateEnUS
          (if hasFourConsecDigits s then d else setYear d env.today.year)) ∧
    (∀ d : SimpleDate, 1 ≤ d.month → d.month ≤ 12 → d.day ≤ 99 →
      1000 ≤ d.year → d.year ≤ 9999 → dateFormatOk (formatDateEnUS d)) := by
  refine ⟨rfl, ?_, ?_, ?_⟩
  · unfold parseDate
    rw [if_neg (by decide), if_pos rfl]
  · intro s d hs1 hs2 hp
    unfold parseDate
    rw [if_neg hs1, if_neg hs2, hp]
  · intro d hm1 hm2 hd hy1 hy2
    refine ⟨monthName d.month, pad2 d.day, toString d.year, rfl, ?_, ?_, ?_, ?_, ?_⟩
    · have hidx : d.month - 1 < monthNames.length := by
        simp only [monthNames, List.length_cons, List.length_nil]
        omega
      unfold monthName
      rw [List.getD_eq_getElem monthNames "" hidx]
      exact List.getElem_mem hidx
    · exact (pad2_spec d.day hd).1
    · exact (pad2_spec d.day hd).2
    · exact (year_repr_spec d.year hy1 hy2).1
    · exact (year_repr_spec d.year hy1 hy2).2

end
